import Mathlib

/-!
Verification development for the r0 Reality-Signature repository.

The TypeScript sources are embedded shallowly:

* byte buffers (`Buffer`) become `List Nat` (byte values);
* strings become Lean `String`/`List Char`;
* JS numbers that the code constrains to integers become `Int`;
* the external cryptographic primitives (node `crypto` SHA-256,
  `@noble/ed25519`) are abstract parameters collected in `CryptoPrims`,
  because they are opaque library calls from the repository's point of view;
* `JSON.stringify` of the fixed-shape payload object is implemented
  concretely (ECMA-404 string escaping, decimal integers), since the
  payload bytes are the heart of the protocol;
* fallible TS functions that `throw` become `Except String`.
-/

/-! ## Characters and decimal / hex digits -/

/-- Lowercase hex digit test, mirroring the character class `[0-9a-f]`. -/
def isLowerHexDigit (c : Char) : Bool :=
  c.isDigit || ('a' ≤ c && c ≤ 'f')

/-- `^[0-9a-f]{64}$` test used by `isValidSignatureFormat` in verify.ts. -/
def isHex64 (s : String) : Bool :=
  s.length == 64 && s.data.all isLowerHexDigit

/-- Decimal digit character, `0 ≤ d ≤ 9` expected. -/
def digitChar (d : Nat) : Char :=
  if d = 0 then '0' else if d = 1 then '1' else if d = 2 then '2'
  else if d = 3 then '3' else if d = 4 then '4' else if d = 5 then '5'
  else if d = 6 then '6' else if d = 7 then '7' else if d = 8 then '8'
  else '9'

/-- Lowercase hex digit character, `0 ≤ d ≤ 15` expected. -/
def hexDigitChar (d : Nat) : Char :=
  if d < 10 then digitChar d
  else if d = 10 then 'a' else if d = 11 then 'b' else if d = 12 then 'c'
  else if d = 13 then 'd' else if d = 14 then 'e' else 'f'

/-- Numeric value of a decimal digit character (inverse of `digitChar`). -/
def digitVal (c : Char) : Nat := c.toNat - 48

/-- Fuel-driven decimal rendering; the fuel bounds the recursion depth so the
definition is structurally recursive (and kernel-reducible). -/
def natCharsAux : Nat → Nat → List Char
  | 0, _ => []
  | fuel + 1, n =>
    if n < 10 then [digitChar n]
    else natCharsAux fuel (n / 10) ++ [digitChar (n % 10)]

/-- Decimal digit string of a natural number, most significant digit first.
This is how `JSON.stringify` renders the (integral, positive) timestamps the
code handles; values at or above 10^21, where JS switches to exponential
notation, are outside the modelled range. -/
def natChars (n : Nat) : List Char :=
  natCharsAux (n + 1) n

/-- Decimal rendering of an integer, with a leading minus sign when negative,
as `JSON.stringify` renders integral JS numbers. -/
def intChars (i : Int) : List Char :=
  if i < 0 then '-' :: natChars (-i).toNat else natChars i.toNat

/-- Decimal value of a digit list (left inverse of `natChars`). -/
def digitsVal (l : List Char) : Nat :=
  l.foldl (fun a c => 10 * a + digitVal c) 0


/-! ## JSON string escaping (ECMA-404 / `JSON.stringify` quoting) -/

/-- Escape of one character inside a JSON string literal, exactly as
`JSON.stringify` quotes strings: `"` and `\` are backslash-escaped, the five
named control characters get their short escapes, all remaining control
characters below U+0020 get a `\u00XX` escape (lowercase hex), and every
other character is emitted verbatim. -/
def escapeChar (c : Char) : List Char :=
  if c = '"' then ['\\', '"']
  else if c = '\\' then ['\\', '\\']
  else if c = '\x08' then ['\\', 'b']
  else if c = '\t' then ['\\', 't']
  else if c = '\n' then ['\\', 'n']
  else if c = '\x0c' then ['\\', 'f']
  else if c = '\r' then ['\\', 'r']
  else if c.toNat < 32 then
    ['\\', 'u', '0', '0', hexDigitChar (c.toNat / 16), hexDigitChar (c.toNat % 16)]
  else [c]

/-- Escape of a character list (body of a JSON string literal). -/
def escapeChars : List Char → List Char
  | [] => []
  | c :: cs => escapeChar c ++ escapeChars cs

/-- A quoted JSON string literal: `"` + escaped body + `"`. -/
def jStr (s : String) : List Char :=
  '"' :: escapeChars s.data ++ ['"']

/-- Numeric value of a lowercase hex digit character (inverse of
`hexDigitChar`); decoding helper for the injectivity proof. -/
def hexVal (c : Char) : Nat :=
  if c = '0' then 0 else if c = '1' then 1 else if c = '2' then 2
  else if c = '3' then 3 else if c = '4' then 4 else if c = '5' then 5
  else if c = '6' then 6 else if c = '7' then 7 else if c = '8' then 8
  else if c = '9' then 9 else if c = 'a' then 10 else if c = 'b' then 11
  else if c = 'c' then 12 else if c = 'd' then 13 else if c = 'e' then 14
  else 15

/-- Prepend a character to the decoded part of a partial unescape result. -/
def consRes (c : Char) (o : Option (List Char × List Char)) :
    Option (List Char × List Char) :=
  o.map fun p => (c :: p.1, p.2)

mutual

/-- Decoder for escaped string bodies: consumes characters up to the first
unescaped `"` and returns the decoded body together with the remainder after
that quote.  Only its behaviour on outputs of `escapeChars` matters; it is the
left inverse witnessing that JSON string encoding is injective. -/
def unescapeAux : List Char → Option (List Char × List Char)
  | [] => none
  | c :: rest =>
    if c = '"' then some ([], rest)
    else if c = '\\' then unescSlash rest
    else consRes c (unescapeAux rest)

/-- Decoder state after a backslash. -/
def unescSlash : List Char → Option (List Char × List Char)
  | [] => none
  | x :: r =>
    if x = '"' then consRes '"' (unescapeAux r)
    else if x = '\\' then consRes '\\' (unescapeAux r)
    else if x = 'b' then consRes '\x08' (unescapeAux r)
    else if x = 't' then consRes '\t' (unescapeAux r)
    else if x = 'n' then consRes '\n' (unescapeAux r)
    else if x = 'f' then consRes '\x0c' (unescapeAux r)
    else if x = 'r' then consRes '\r' (unescapeAux r)
    else if x = 'u' then unescHex r
    else none

/-- Decoder state after `\u`; expects `00` and two hex digits. -/
def unescHex : List Char → Option (List Char × List Char)
  | z1 :: z2 :: h1 :: h2 :: r2 =>
    if z1 = '0' ∧ z2 = '0' then
      consRes (Char.ofNat (16 * hexVal h1 + hexVal h2)) (unescapeAux r2)
    else none
  | _ => none

end


/-! ## JSON values and `JSON.stringify` of the fixed-order payload object

`payload.ts` builds a `CanonicalPayload` object literal whose keys are
inserted in a fixed order and serializes it with `JSON.stringify`.  The
object literal becomes an ordered association list; `jObject` is
`JSON.stringify` for such a flat object. -/

/-- The JSON values appearing in the records of this protocol. -/
inductive Json where
  | str (s : String)
  | num (i : Int)
  | bool (b : Bool)
deriving DecidableEq

/-- `JSON.stringify` of a single JSON value of this protocol. -/
def jEncode : Json → List Char
  | .str s => jStr s
  | .num i => intChars i
  | .bool b => if b then "true".data else "false".data

/-- `JSON.stringify` body of a flat object: `"key":value` pairs joined by
commas, keys in the given order. -/
def jFields : List (String × Json) → List Char
  | [] => []
  | [(k, v)] => jStr k ++ ':' :: jEncode v
  | (k, v) :: e :: rest => jStr k ++ ':' :: jEncode v ++ ',' :: jFields (e :: rest)

/-- `JSON.stringify` of a flat object with the given ordered fields. -/
def jObject (fs : List (String × Json)) : List Char :=
  '{' :: jFields fs ++ ['}']

/-! ## Signature payload (payload.ts) -/

/-- `SignaturePayloadFields` from types.ts: the signed field set, excluding
`signature` and `public_key`.  The TS literal type `version: "1.0"` is a
`String` here; creation always sets it to `"1.0"`. -/
structure SignaturePayloadFields where
  version : String
  document_hash : String
  intent_hash : String
  intent_text : String
  approver_id : String
  approver_name : String
  timestamp : Int
  presence_proof_id : String
  presence_proof_hash : String
  ai_flag : Bool
deriving DecidableEq

/-- The `CanonicalPayload` object literal of `buildSignaturePayload`: the
abbreviated keys in the fixed order v, dh, ih, it, ai, an, ts, pp, pph, af,
paired with the corresponding field values. -/
def payloadEntries (f : SignaturePayloadFields) : List (String × Json) :=
  [("v", .str f.version),
   ("dh", .str f.document_hash),
   ("ih", .str f.intent_hash),
   ("it", .str f.intent_text),
   ("ai", .str f.approver_id),
   ("an", .str f.approver_name),
   ("ts", .num f.timestamp),
   ("pp", .str f.presence_proof_id),
   ("pph", .str f.presence_proof_hash),
   ("af", .bool f.ai_flag)]

/-- `buildSignaturePayload` from payload.ts: `JSON.stringify` of the canonical
payload object with its fixed key order. -/
def buildSignaturePayload (f : SignaturePayloadFields) : String :=
  String.mk (jObject (payloadEntries f))


/-! ## Abstract cryptographic primitives (crypto/hash.ts, crypto/signing.ts)

SHA-256 and Ed25519 are external library calls (`node:crypto`,
`@noble/ed25519`); they are modelled as abstract functions.  Theorems that
depend on their cryptographic behaviour (determinism, collision-freeness on
the inputs at hand, unforgeability under an honest key) state that behaviour
as explicit hypotheses. -/

/-- The primitive suite, parametrized by the private-key type `SK`
(`Uint8Array` in the source). -/
structure CryptoPrims (SK : Type) where
  /-- `hashDocument` (hash.ts): SHA-256 of the bytes, 64 lowercase hex chars. -/
  hashDocument : List Nat → String
  /-- `hashString` (hash.ts): SHA-256 of the UTF-8 bytes of a string. -/
  hashString : String → String
  /-- `sign` (signing.ts): Ed25519 over the payload, base64-encoded. -/
  sign : String → SK → String
  /-- `ed.getPublicKey` + base64, as used in create.ts. -/
  getPublicKey : SK → String
  /-- `verify` (signing.ts): Ed25519 check; its `try/catch` returns `false`
  for undecodable base64 input, so it is a total Bool-valued function. -/
  edVerify : String → String → String → Bool

/-! ## Records (types.ts) -/

/-- `RealitySignature` from types.ts.  The TS literal type `version: "1.0"`
is a `String` field here; `createRealitySignature` always writes `"1.0"` and
the format check demands it. -/
structure RealitySignature where
  version : String
  document_hash : String
  intent_hash : String
  intent_text : String
  approver_id : String
  approver_name : String
  timestamp : Int
  presence_proof_id : String
  presence_proof_hash : String
  ai_flag : Bool
  signature : String
  public_key : String
deriving DecidableEq

/-- `RealitySignatureParams` from types.ts (`ai_flag?:` is optional). -/
structure RealitySignatureParams where
  document_hash : String
  intent_hash : String
  intent_text : String
  approver_id : String
  approver_name : String
  timestamp : Int
  presence_proof_id : String
  presence_proof_hash : String
  ai_flag : Option Bool
deriving DecidableEq

/-- `extractPayloadFields` from payload.ts: project the signed field set out
of a record for payload reconstruction. -/
def extractPayloadFields (sig : RealitySignature) : SignaturePayloadFields :=
  { version := sig.version
    document_hash := sig.document_hash
    intent_hash := sig.intent_hash
    intent_text := sig.intent_text
    approver_id := sig.approver_id
    approver_name := sig.approver_name
    timestamp := sig.timestamp
    presence_proof_id := sig.presence_proof_id
    presence_proof_hash := sig.presence_proof_hash
    ai_flag := sig.ai_flag }

/-- `createRealitySignature` from create.ts: build the canonical payload
(version `"1.0"`, `ai_flag` defaulted to `false`), sign it, derive the public
key, and assemble the record. -/
def createRealitySignature {SK : Type} (C : CryptoPrims SK)
    (params : RealitySignatureParams) (privateKey : SK) : RealitySignature :=
  let payloadFields : SignaturePayloadFields :=
    { version := "1.0"
      document_hash := params.document_hash
      intent_hash := params.intent_hash
      intent_text := params.intent_text
      approver_id := params.approver_id
      approver_name := params.approver_name
      timestamp := params.timestamp
      presence_proof_id := params.presence_proof_id
      presence_proof_hash := params.presence_proof_hash
      ai_flag := params.ai_flag.getD false }
  let payload := buildSignaturePayload payloadFields
  let signature := C.sign payload privateKey
  let publicKey := C.getPublicKey privateKey
  { version := "1.0"
    document_hash := params.document_hash
    intent_hash := params.intent_hash
    intent_text := params.intent_text
    approver_id := params.approver_id
    approver_name := params.approver_name
    timestamp := params.timestamp
    presence_proof_id := params.presence_proof_id
    presence_proof_hash := params.presence_proof_hash
    ai_flag := params.ai_flag.getD false
    signature := signature
    public_key := publicKey }

/-! ## Verification (verification/verify.ts) -/

/-- `isValidSignatureFormat` from verify.ts: the value-level constraints of
the format check.  (The `typeof` checks of the TS code are subsumed by the
field types of the embedding; `Number.isInteger` is subsumed by `Int`.) -/
def isValidSignatureFormat (sig : RealitySignature) : Bool :=
  (sig.version == "1.0") &&
  isHex64 sig.document_hash &&
  isHex64 sig.intent_hash &&
  (sig.intent_text != "") &&
  (sig.approver_id != "") &&
  (sig.approver_name != "") &&
  decide (0 < sig.timestamp) &&
  (sig.presence_proof_id != "") &&
  isHex64 sig.presence_proof_hash &&
  (sig.signature != "") &&
  (sig.public_key != "")

/-- The `VerificationResult` union of verify.ts.  Each TS interface pins
`valid`, `error` and `document_integrity` to literals, so each variant
carries only its non-constant fields; the accessors below recover the
literal fields. -/
inductive VerificationResult where
  | success (approver_id : String) (approver_name : String)
      (timestamp : Int) (ai_used : Bool)
  | documentAltered (computed_hash : String) (expected_hash : String)
  | signatureNotAuthentic
  | invalidSignatureFormat
deriving DecidableEq

/-- The `valid` field of a `VerificationResult`. -/
def VerificationResult.valid : VerificationResult → Bool
  | .success _ _ _ _ => true
  | _ => false

/-- The `error` field of a `VerificationResult` (`none` on success). -/
def VerificationResult.error : VerificationResult → Option String
  | .success _ _ _ _ => none
  | .documentAltered _ _ => some "document_altered"
  | .signatureNotAuthentic => some "signature_not_authentic"
  | .invalidSignatureFormat => some "invalid_signature_format"

/-- The `document_integrity` field of a `VerificationResult`. -/
def VerificationResult.document_integrity : VerificationResult → String
  | .success _ _ _ _ => "intact"
  | .documentAltered _ _ => "altered"
  | .signatureNotAuthentic => "unknown"
  | .invalidSignatureFormat => "unknown"

/-- `verify` from verification/verify.ts: format check, document hash
comparison, payload reconstruction, Ed25519 check, success.  A total
function: every failure is a returned value, never an exception. -/
def verify {SK : Type} (C : CryptoPrims SK) (document : List Nat)
    (sig : RealitySignature) : VerificationResult :=
  if !isValidSignatureFormat sig then
    .invalidSignatureFormat
  else
    let computedHash := C.hashDocument document
    if computedHash != sig.document_hash then
      .documentAltered computedHash sig.document_hash
    else
      let payloadFields := extractPayloadFields sig
      let payload := buildSignaturePayload payloadFields
      if !C.edVerify payload sig.signature sig.public_key then
        .signatureNotAuthentic
      else
        .success sig.approver_id sig.approver_name sig.timestamp sig.ai_flag

/-! ## Compact serialization (create.ts)

`serializeRealitySignature` returns `JSON.stringify` of an object literal
with the short keys; `deserializeRealitySignature` applies `JSON.parse` and
reads the short keys off the parsed object.  Since `JSON.parse` inverts
`JSON.stringify` on these values, the wire string is modelled by its parsed
object: a key-ordered association list of `Json` values. -/

/-- JS property read `o.k` on a parsed JSON object (`undefined` = `none`).
`JSON.parse` collapses duplicate keys, so these association lists have
pairwise distinct keys and first-match lookup is exact. -/
def jget (o : List (String × Json)) (k : String) : Option Json :=
  (o.find? (fun e => e.1 == k)).map (fun e => e.2)

/-- The object literal built by `serializeRealitySignature` in create.ts:
short keys in source order. -/
def serializeRealitySignature (sig : RealitySignature) : List (String × Json) :=
  [("v", .str sig.version),
   ("dh", .str sig.document_hash),
   ("ih", .str sig.intent_hash),
   ("it", .str sig.intent_text),
   ("ai", .str sig.approver_id),
   ("an", .str sig.approver_name),
   ("ts", .num sig.timestamp),
   ("pp", .str sig.presence_proof_id),
   ("pph", .str sig.presence_proof_hash),
   ("af", .bool sig.ai_flag),
   ("sg", .str sig.signature),
   ("pk", .str sig.public_key)]

/-- The untyped record value `deserializeRealitySignature` returns: the TS
function copies whatever JSON values sit under the short keys (possibly
`undefined`) without type checks, so each field is an `Option Json`. -/
structure DeserializedRecord where
  version : Option Json
  document_hash : Option Json
  intent_hash : Option Json
  intent_text : Option Json
  approver_id : Option Json
  approver_name : Option Json
  timestamp : Option Json
  presence_proof_id : Option Json
  presence_proof_hash : Option Json
  ai_flag : Option Json
  signature : Option Json
  public_key : Option Json
deriving DecidableEq

/-- `deserializeRealitySignature` from create.ts: after `JSON.parse`, the
only validation is `parsed.v !== "1.0"` (which throws); every field is then
copied from the short keys. -/
def deserializeRealitySignature (o : List (String × Json)) :
    Except String DeserializedRecord :=
  if jget o "v" ≠ some (.str "1.0") then
    .error "Invalid signature version"
  else
    .ok
      { version := jget o "v"
        document_hash := jget o "dh"
        intent_hash := jget o "ih"
        intent_text := jget o "it"
        approver_id := jget o "ai"
        approver_name := jget o "an"
        timestamp := jget o "ts"
        presence_proof_id := jget o "pp"
        presence_proof_hash := jget o "pph"
        ai_flag := jget o "af"
        signature := jget o "sg"
        public_key := jget o "pk" }

/-- The image of a typed record in the untyped runtime shape; field-for-field
injection used to compare a deserialization result with a record. -/
def toDeserialized (sig : RealitySignature) : DeserializedRecord :=
  { version := some (.str sig.version)
    document_hash := some (.str sig.document_hash)
    intent_hash := some (.str sig.intent_hash)
    intent_text := some (.str sig.intent_text)
    approver_id := some (.str sig.approver_id)
    approver_name := some (.str sig.approver_name)
    timestamp := some (.num sig.timestamp)
    presence_proof_id := some (.str sig.presence_proof_id)
    presence_proof_hash := some (.str sig.presence_proof_hash)
    ai_flag := some (.bool sig.ai_flag)
    signature := some (.str sig.signature)
    public_key := some (.str sig.public_key)}

/-- A JSON object encoding a record under the long field names, as posited by
the spec sentence about the deserializer accepting both forms. -/
def longFormObject (sig : RealitySignature) : List (String × Json) :=
  [("version", .str sig.version),
   ("document_hash", .str sig.document_hash),
   ("intent_hash", .str sig.intent_hash),
   ("intent_text", .str sig.intent_text),
   ("approver_id", .str sig.approver_id),
   ("approver_name", .str sig.approver_name),
   ("timestamp", .num sig.timestamp),
   ("presence_proof_id", .str sig.presence_proof_id),
   ("presence_proof_hash", .str sig.presence_proof_hash),
   ("ai_flag", .bool sig.ai_flag),
   ("signature", .str sig.signature),
   ("public_key", .str sig.public_key)]

/-! ## Intent canonicalization (crypto/hash.ts) -/

/-- ECMAScript whitespace class `\s` (WhiteSpace ∪ LineTerminator), the set
used by the regexes and by `String.prototype.trim`. -/
def jsWhitespace (c : Char) : Bool :=
  c = '\t' || c = '\n' || c = '\x0b' || c = '\x0c' || c = '\r' || c = ' ' ||
  c = ' ' || c = ' ' || (' ' ≤ c && c ≤ ' ') ||
  c = ' ' || c = ' ' || c = ' ' || c = ' ' ||
  c = '　' || c = '﻿'

/-- The character class `[^\S\n]`: whitespace other than newline. -/
def isWsNotNl (c : Char) : Bool :=
  jsWhitespace c && !(c == '\n')

/-- `.replace(/\r\n/g, '\n')`: every CR immediately followed by LF becomes a
single LF; a CR not followed by LF stays (handled by the next pass). -/
def replaceCrLf : List Char → List Char
  | [] => []
  | [c] => [c]
  | c :: d :: cs =>
    if c = '\r' && d = '\n' then '\n' :: replaceCrLf cs
    else c :: replaceCrLf (d :: cs)

/-- `.replace(/\r/g, '\n')`. -/
def replaceCr (l : List Char) : List Char :=
  l.map fun c => if c = '\r' then '\n' else c

mutual

/-- `.replace(/[^\S\n]+/g, ' ')`: each maximal run of non-newline whitespace
becomes one space (global greedy regex replacement). -/
def collapseWs : List Char → List Char
  | [] => []
  | c :: cs =>
    if isWsNotNl c then ' ' :: collapseSkip cs else c :: collapseWs cs

/-- Skips the rest of a whitespace run already replaced by one space. -/
def collapseSkip : List Char → List Char
  | [] => []
  | c :: cs =>
    if isWsNotNl c then collapseSkip cs else c :: collapseWs cs

end

/-- `String.prototype.trim`, front half: drop leading `\s`. -/
def ltrimWs (l : List Char) : List Char :=
  l.dropWhile jsWhitespace

/-- `String.prototype.trim`, back half: drop trailing `\s`. -/
def rtrimWs (l : List Char) : List Char :=
  (l.reverse.dropWhile jsWhitespace).reverse

/-- `String.prototype.trim`: drop `\s` at both ends. -/
def jsTrim (l : List Char) : List Char :=
  ltrimWs (rtrimWs l)

/-- `canonicalizeIntent` from hash.ts, parametrized by the Unicode NFC
normalization `String.prototype.normalize('NFC')` (an engine builtin,
abstract here): NFC, then `\r\n` → `\n`, then `\r` → `\n`, then collapse
non-newline whitespace runs to one space, then trim. -/
def canonicalizeIntent (normalizeNFC : String → String) (text : String) : String :=
  String.mk (jsTrim (collapseWs (replaceCr (replaceCrLf (normalizeNFC text).data))))

/-- `hashIntent` from hash.ts: hash of the canonicalized intent text. -/
def hashIntent {SK : Type} (C : CryptoPrims SK) (normalizeNFC : String → String)
    (text : String) : String :=
  C.hashString (canonicalizeIntent normalizeNFC text)

/-! ## Approval sessions (approval-session.ts) -/

/-- `ApprovalSessionStatus` from types.ts. -/
inductive ApprovalSessionStatus where
  | pending
  | approved
  | expired
deriving DecidableEq

/-- `ApprovalSession` from types.ts. -/
structure ApprovalSession where
  id : String
  secure_token : String
  document_hash : String
  document_path : String
  document_name : String
  intent_text : String
  intent_hash : String
  status : ApprovalSessionStatus
  created_at : Int
  expires_at : Int
  approved_at : Option Int
  signature_id : Option String
deriving DecidableEq

/-- `DEFAULT_EXPIRATION_MS` from approval-session.ts: 24 h in milliseconds. -/
def DEFAULT_EXPIRATION_MS : Int := 24 * 60 * 60 * 1000

/-- `createSession` from approval-session.ts.  The two `uuidv4()` calls and
`Date.now()` are nondeterministic inputs of the source and are therefore
explicit arguments (`id`, `secureToken`, `now`). -/
def createSession {SK : Type} (C : CryptoPrims SK) (normalizeNFC : String → String)
    (id : String) (secureToken : String) (now : Int)
    (documentHash : String) (documentPath : String) (documentName : String)
    (intentText : String) : ApprovalSession :=
  { id := id
    secure_token := secureToken
    document_hash := documentHash
    document_path := documentPath
    document_name := documentName
    intent_text := intentText
    intent_hash := hashIntent C normalizeNFC intentText
    status := .pending
    created_at := now
    expires_at := now + DEFAULT_EXPIRATION_MS
    approved_at := none
    signature_id := none }

/-- `canApprove` from approval-session.ts: only `pending` sessions whose
deadline has not passed (`Date.now() > expires_at` is the rejection test)
can be approved. -/
def canApprove (session : ApprovalSession) (now : Int) : Bool :=
  if session.status ≠ .pending then false
  else if session.expires_at < now then false
  else true

/-- `approveSession` from approval-session.ts: throws `SESSION_EXPIRED` when
the status field is `expired` and `SESSION_ALREADY_APPROVED` otherwise if the
session cannot be approved; on success returns the approved copy.  `Date.now()`
is the explicit `now` argument; the thrown `Error` is the `Except.error`. -/
def approveSession (session : ApprovalSession) (signatureId : String)
    (now : Int) : Except String ApprovalSession :=
  if !canApprove session now then
    .error (if session.status = .expired then "SESSION_EXPIRED"
            else "SESSION_ALREADY_APPROVED")
  else
    .ok { session with
          status := .approved
          approved_at := some now
          signature_id := some signatureId }

/-- `expireSession` from approval-session.ts: unconditionally sets the status
to `expired`. -/
def expireSession (session : ApprovalSession) : ApprovalSession :=
  { session with status := .expired }


/-! ## Predicates used by the canonicalization proofs -/

/-- Head of the list is not non-newline whitespace (vacuous for `[]`). -/
def headNotWs : List Char → Bool
  | [] => true
  | d :: _ => !isWsNotNl d

/-- Output invariant of `collapseWs`: every non-newline whitespace character
is a single space and no two of them are adjacent. -/
def collapsedOK : List Char → Bool
  | [] => true
  | c :: cs =>
    (if isWsNotNl c then c == ' ' && headNotWs cs else true) && collapsedOK cs

/-- "No leading `p`-character": the head, if any, fails `p`. -/
def NoLead {α : Type} (p : α → Bool) (x : List α) : Prop :=
  ∀ c t, x = c :: t → p c = false

/-! ## Concrete instances used by witnesses and counterexamples

A small executable instantiation of the abstract primitives; its hash is
determined by the byte count (64 hex chars, collision-free on the documents
used below) and its signature scheme tags the signed payload, so the
correctness and binding hypotheses of the theorems can be discharged on it. -/

/-- Executable toy primitive suite over private-key type `Nat`. -/
def toyCrypto : CryptoPrims Nat :=
  { hashDocument := fun b => String.mk (List.replicate 64 (digitChar (b.length % 10)))
    hashString := fun s => s
    sign := fun payload _ => "s" ++ payload
    getPublicKey := fun _ => "PK"
    edVerify := fun payload sig _ => sig == "s" ++ payload }

/-- Demo document bytes (`"hi"`). -/
def demoDoc : List Nat := [104, 105]

/-- Demo document with different content (and length, hence digest). -/
def demoDocAltered : List Nat := [104, 105, 33]

/-- Demo creation parameters, well-formed over `demoDoc`. -/
def demoParams : RealitySignatureParams :=
  { document_hash := toyCrypto.hashDocument demoDoc
    intent_hash := String.mk (List.replicate 64 'a')
    intent_text := "Approve contract with ACME Corp"
    approver_id := "user-123"
    approver_name := "Test User"
    timestamp := 1234567890123
    presence_proof_id := "proof-456"
    presence_proof_hash := String.mk (List.replicate 64 'b')
    ai_flag := some false }

/-- Demo record created over `demoDoc` with the toy primitives. -/
def demoRecord : RealitySignature := createRealitySignature toyCrypto demoParams 7

/-- Demo pending session (toy primitives, identity NFC, fixed ids/time). -/
def demoSession : ApprovalSession :=
  createSession toyCrypto (fun s => s) "session-1" "token-1" 1000
    "aaaa" "/uploads/test.pdf" "test.pdf" "Approve contract with ACME Corp"

/-- Demo approved session. -/
def demoApproved : ApprovalSession :=
  { demoSession with
    status := .approved
    approved_at := some 2000
    signature_id := some "sig-123" }

/-- Demo expired session. -/
def demoExpired : ApprovalSession := { demoSession with status := .expired }

/-! ## Helper lemmas -/

theorem natCharsAux_eq (fuel n : Nat) (h : n < fuel) :
    natCharsAux fuel n =
      if n < 10 then [digitChar n]
      else natCharsAux (fuel - 1) (n / 10) ++ [digitChar (n % 10)] := by
  cases fuel with
  | zero => omega
  | succ f =>
    by_cases h10 : n < 10 <;> simp [natCharsAux, h10]

theorem natCharsAux_fuel_irrel (fuel fuel' n : Nat) (h : n < fuel) (h' : n < fuel') :
    natCharsAux fuel n = natCharsAux fuel' n := by
  induction n using Nat.strong_induction_on generalizing fuel fuel' with
  | _ n ih =>
    rw [natCharsAux_eq fuel n h, natCharsAux_eq fuel' n h']
    by_cases h10 : n < 10
    · simp [h10]
    · simp only [h10, if_false]
      have hq := Nat.div_add_mod n 10
      have hm : n % 10 < 10 := Nat.mod_lt _ (by omega)
      have hlt : n / 10 < n := Nat.div_lt_self (by omega) (by omega)
      rw [ih (n / 10) hlt (fuel - 1) (fuel' - 1) (by omega) (by omega)]

theorem natChars_eq_unfold (n : Nat) :
    natChars n =
      if n < 10 then [digitChar n]
      else natChars (n / 10) ++ [digitChar (n % 10)] := by
  rw [natChars, natCharsAux_eq (n + 1) n (by omega)]
  by_cases h10 : n < 10
  · simp [h10]
  · simp only [h10, if_false, natChars]
    have hq := Nat.div_add_mod n 10
    have hm : n % 10 < 10 := Nat.mod_lt _ (by omega)
    rw [natCharsAux_fuel_irrel (n + 1 - 1) (n / 10 + 1) (n / 10) (by omega) (by omega)]

theorem digitChar_isDigit (d : Nat) (h : d < 10) : (digitChar d).isDigit = true := by
  interval_cases d <;> decide

theorem digitVal_digitChar (d : Nat) (h : d < 10) : digitVal (digitChar d) = d := by
  interval_cases d <;> decide

theorem natChars_ne_nil (n : Nat) : natChars n ≠ [] := by
  rw [natChars_eq_unfold]
  by_cases h10 : n < 10 <;> simp [h10]

theorem natChars_digits (n : Nat) : ∀ c ∈ natChars n, c.isDigit = true := by
  induction n using Nat.strong_induction_on with
  | _ n ih =>
    rw [natChars_eq_unfold]
    by_cases h10 : n < 10
    · simp only [h10, if_true, List.mem_singleton]
      intro c hc; subst hc; exact digitChar_isDigit n h10
    · simp only [h10, if_false, List.mem_append, List.mem_singleton]
      intro c hc
      rcases hc with hc | hc
      · exact ih (n / 10) (Nat.div_lt_self (by omega) (by omega)) c hc
      · subst hc; exact digitChar_isDigit _ (Nat.mod_lt _ (by omega))

theorem digitsVal_natChars (n : Nat) : digitsVal (natChars n) = n := by
  induction n using Nat.strong_induction_on with
  | _ n ih =>
    rw [natChars_eq_unfold]
    by_cases h10 : n < 10
    · simp only [h10, if_true]
      simp [digitsVal, digitVal_digitChar n h10]
    · simp only [h10, if_false, digitsVal, List.foldl_append]
      have := ih (n / 10) (Nat.div_lt_self (by omega) (by omega))
      simp only [digitsVal] at this
      simp [this, digitVal_digitChar _ (Nat.mod_lt _ (show 0 < 10 by omega)),
        Nat.div_add_mod]

theorem natChars_injective : Function.Injective natChars := by
  intro m n h
  have := congrArg digitsVal h
  rwa [digitsVal_natChars, digitsVal_natChars] at this

/-- Splitting a list whose prefix satisfies `p` pointwise at the first
character failing `p`. -/
theorem takeWhile_dropWhile_split (p : Char → Bool) (A : List Char) (c : Char)
    (r : List Char) (hA : ∀ a ∈ A, p a = true) (hc : p c = false) :
    (A ++ c :: r).takeWhile p = A ∧ (A ++ c :: r).dropWhile p = c :: r := by
  induction A with
  | nil => simp [List.takeWhile, List.dropWhile, hc]
  | cons a A ih =>
    have ha : p a = true := hA a (by simp)
    have ih' := ih (fun x hx => hA x (by simp [hx]))
    simp [List.takeWhile, List.dropWhile, ha, ih'.1, ih'.2]

theorem natChars_seg {m n : Nat} {X Y : List Char}
    (h : natChars m ++ ',' :: X = natChars n ++ ',' :: Y) : m = n ∧ X = Y := by
  have hm := takeWhile_dropWhile_split Char.isDigit (natChars m) ',' X
    (natChars_digits m) (by decide)
  have hn := takeWhile_dropWhile_split Char.isDigit (natChars n) ',' Y
    (natChars_digits n) (by decide)
  have h1 : natChars m = natChars n := by rw [← hm.1, ← hn.1, h]
  have h2 : (',' :: X : List Char) = ',' :: Y := by rw [← hm.2, ← hn.2, h]
  exact ⟨natChars_injective h1, by simpa using h2⟩

theorem intChars_seg {m n : Int} {X Y : List Char}
    (h : intChars m ++ ',' :: X = intChars n ++ ',' :: Y) : m = n ∧ X = Y := by
  have hdig : ∀ k : Nat, ∃ d t, natChars k = d :: t ∧ d.isDigit = true := by
    intro k
    rcases hk : natChars k with _ | ⟨d, t⟩
    · exact absurd hk (natChars_ne_nil k)
    · exact ⟨d, t, rfl, natChars_digits k d (by rw [hk]; simp)⟩
  unfold intChars at h
  by_cases hm : m < 0 <;> by_cases hn : n < 0
  · simp only [hm, hn, if_true, List.cons_append, List.cons.injEq] at h
    have := natChars_seg h.2
    have hmn : (-m).toNat = (-n).toNat := this.1
    exact ⟨by omega, this.2⟩
  · simp only [hm, hn, if_true, if_false, List.cons_append, List.cons.injEq] at h
    obtain ⟨d, t, hd, hdig'⟩ := hdig n.toNat
    rw [hd] at h
    simp only [List.cons_append, List.cons.injEq] at h
    rw [← h.1] at hdig'
    exact absurd hdig' (by decide)
  · simp only [hm, hn, if_true, if_false, List.cons_append, List.cons.injEq] at h
    obtain ⟨d, t, hd, hdig'⟩ := hdig m.toNat
    rw [hd] at h
    simp only [List.cons_append, List.cons.injEq] at h
    rw [h.1] at hdig'
    exact absurd hdig' (by decide)
  · simp only [hm, hn, if_false] at h
    have := natChars_seg h
    exact ⟨by omega, this.2⟩

theorem hexVal_hexDigitChar (d : Nat) (h : d < 16) : hexVal (hexDigitChar d) = d := by
  interval_cases d <;> decide

theorem unescape_escape (s : List Char) :
    ∀ r : List Char, unescapeAux (escapeChars s ++ '"' :: r) = some (s, r) := by
  induction s with
  | nil => intro r; simp [escapeChars, unescapeAux]
  | cons c cs ih =>
    intro r
    by_cases h1 : c = '"'
    · simp [escapeChars, escapeChar, h1, unescapeAux, unescSlash, consRes, ih r]
    · by_cases h2 : c = '\\'
      · simp [escapeChars, escapeChar, h1, h2, unescapeAux, unescSlash, consRes, ih r]
      · by_cases h3 : c = '\x08'
        · simp [escapeChars, escapeChar, h1, h2, h3, unescapeAux, unescSlash,
            consRes, ih r]
        · by_cases h4 : c = '\t'
          · simp [escapeChars, escapeChar, h1, h2, h3, h4, unescapeAux, unescSlash,
              consRes, ih r]
          · by_cases h5 : c = '\n'
            · simp [escapeChars, escapeChar, h1, h2, h3, h4, h5, unescapeAux,
                unescSlash, consRes, ih r]
            · by_cases h6 : c = '\x0c'
              · simp [escapeChars, escapeChar, h1, h2, h3, h4, h5, h6, unescapeAux,
                  unescSlash, consRes, ih r]
              · by_cases h7 : c = '\r'
                · simp [escapeChars, escapeChar, h1, h2, h3, h4, h5, h6, h7,
                    unescapeAux, unescSlash, consRes, ih r]
                · by_cases h8 : c.toNat < 32
                  · have hd : c.toNat / 16 < 16 := by omega
                    have hm : c.toNat % 16 < 16 := Nat.mod_lt _ (by omega)
                    simp only [escapeChars, escapeChar, h1, h2, h3, h4, h5, h6, h7,
                      if_false, h8, if_true, List.cons_append, List.append_assoc]
                    rw [unescapeAux]
                    simp only [reduceIte]
                    rw [unescSlash]
                    simp only [reduceIte]
                    rw [unescHex]
                    simp only [reduceIte, and_self, if_true, ih r]
                    rw [hexVal_hexDigitChar _ hd, hexVal_hexDigitChar _ hm]
                    rw [Nat.div_add_mod c.toNat 16, Char.ofNat_toNat]
                    simp [consRes]
                    exact ih r
                  · simp only [escapeChars, escapeChar, h1, h2, h3, h4, h5, h6, h7,
                      h8, if_false, List.cons_append, List.singleton_append]
                    rw [unescapeAux]
                    simp [h1, h2, consRes, ih r]

/-- Injectivity of the escaped-body-plus-closing-quote form: the encoded
segment determines both the original string and the remainder. -/
theorem escape_seg {a b X Y : List Char}
    (h : escapeChars a ++ '"' :: X = escapeChars b ++ '"' :: Y) :
    a = b ∧ X = Y := by
  have ha := unescape_escape a X
  have hb := unescape_escape b Y
  rw [h, hb] at ha
  simpa using ha.symm

theorem jStr_cons (s : String) (X : List Char) :
    jStr s ++ X = '"' :: (escapeChars s.data ++ '"' :: X) := by
  simp [jStr]

theorem escLit_v : escapeChars ['v'] = ['v'] := rfl

theorem escLit_dh : escapeChars ['d', 'h'] = ['d', 'h'] := rfl

theorem escLit_ih : escapeChars ['i', 'h'] = ['i', 'h'] := rfl

theorem escLit_it : escapeChars ['i', 't'] = ['i', 't'] := rfl

theorem escLit_ai : escapeChars ['a', 'i'] = ['a', 'i'] := rfl

theorem escLit_an : escapeChars ['a', 'n'] = ['a', 'n'] := rfl

theorem escLit_ts : escapeChars ['t', 's'] = ['t', 's'] := rfl

theorem escLit_pp : escapeChars ['p', 'p'] = ['p', 'p'] := rfl

theorem escLit_pph : escapeChars ['p', 'p', 'h'] = ['p', 'p', 'h'] := rfl

theorem escLit_af : escapeChars ['a', 'f'] = ['a', 'f'] := rfl

/-- The canonical payload string determines every signed field: JSON
serialization with the fixed key order is injective on the field set. -/
theorem buildSignaturePayload_inj {f g : SignaturePayloadFields}
    (h : buildSignaturePayload f = buildSignaturePayload g) : f = g := by
  have h' : jObject (payloadEntries f) = jObject (payloadEntries g) := by
    have := congrArg String.data h
    simpa [buildSignaturePayload] using this
  simp only [jObject, payloadEntries, jFields, jEncode, jStr_cons,
    escLit_v, escLit_dh, escLit_ih, escLit_it, escLit_ai, escLit_an,
    escLit_ts, escLit_pp, escLit_pph, escLit_af,
    List.cons_append, List.append_assoc, List.singleton_append, List.nil_append,
    List.cons.injEq, eq_self_iff_true, true_and] at h'
  obtain ⟨hv, h'⟩ := escape_seg h'
  simp only [List.cons.injEq, eq_self_iff_true, true_and] at h'
  obtain ⟨hdh, h'⟩ := escape_seg h'
  simp only [List.cons.injEq, eq_self_iff_true, true_and] at h'
  obtain ⟨hih, h'⟩ := escape_seg h'
  simp only [List.cons.injEq, eq_self_iff_true, true_and] at h'
  obtain ⟨hit, h'⟩ := escape_seg h'
  simp only [List.cons.injEq, eq_self_iff_true, true_and] at h'
  obtain ⟨hai, h'⟩ := escape_seg h'
  simp only [List.cons.injEq, eq_self_iff_true, true_and] at h'
  obtain ⟨han, h'⟩ := escape_seg h'
  simp only [List.cons.injEq, eq_self_iff_true, true_and] at h'
  obtain ⟨hts, h'⟩ := intChars_seg h'
  simp only [List.cons.injEq, eq_self_iff_true, true_and] at h'
  obtain ⟨hpp, h'⟩ := escape_seg h'
  simp only [List.cons.injEq, eq_self_iff_true, true_and] at h'
  obtain ⟨hpph, h'⟩ := escape_seg h'
  simp only [List.cons.injEq, eq_self_iff_true, true_and] at h'
  have haf : f.ai_flag = g.ai_flag := by
    cases hf : f.ai_flag <;> cases hg : g.ai_flag <;> rw [hf, hg] at h' <;>
      simp only [reduceIte] at h' <;>
      first
        | rfl
        | exact absurd h' (by decide)
  obtain ⟨v1, d1, i1, t1, a1, n1, s1, p1, q1, b1⟩ := f
  obtain ⟨v2, d2, i2, t2, a2, n2, s2, p2, q2, b2⟩ := g
  simp only at hv hdh hih hit hai han hts hpp hpph haf
  simp only [SignaturePayloadFields.mk.injEq]
  exact ⟨String.ext hv, String.ext hdh, String.ext hih, String.ext hit,
    String.ext hai, String.ext han, hts, String.ext hpp, String.ext hpph, haf⟩

/-! ## Session state machine claims -/

/-- Structure eta: updating `status` to its current value is the identity. -/
theorem expireSession_of_expired {s : ApprovalSession} (h : s.status = .expired) :
    expireSession s = s := by
  cases s
  simp_all [expireSession]

/-- **C8**: a freshly created session is `pending` with `signature_id = null`
and `approved_at = null`; approving a pending session whose deadline has not
passed (`now ≤ expires_at`) yields the approved session carrying the supplied
signature id and the approval timestamp; approving an `approved` session is
rejected with `SESSION_ALREADY_APPROVED`; approving an `expired` session is
rejected with `SESSION_EXPIRED`. -/
theorem claim_C8 {SK : Type} (C : CryptoPrims SK) (normalizeNFC : String → String)
    (sessionId secureToken : String) (now : Int)
    (documentHash documentPath documentName intentText : String)
    (s : ApprovalSession) (signatureId : String) (now2 : Int) :
    ((createSession C normalizeNFC sessionId secureToken now documentHash
        documentPath documentName intentText).status = .pending ∧
     (createSession C normalizeNFC sessionId secureToken now documentHash
        documentPath documentName intentText).signature_id = none ∧
     (createSession C normalizeNFC sessionId secureToken now documentHash
        documentPath documentName intentText).approved_at = none) ∧
    (s.status = .pending → now2 ≤ s.expires_at →
      approveSession s signatureId now2 =
        .ok { s with
              status := .approved
              approved_at := some now2
              signature_id := some signatureId }) ∧
    (s.status = .approved →
      approveSession s signatureId now2 = .error "SESSION_ALREADY_APPROVED") ∧
    (s.status = .expired →
      approveSession s signatureId now2 = .error "SESSION_EXPIRED") := by
  refine ⟨⟨rfl, rfl, rfl⟩, ?_, ?_, ?_⟩
  · intro hp hle
    have hc : canApprove s now2 = true := by
      simp [canApprove, hp]
      omega
    simp [approveSession, hc]
  · intro ha
    have hc : canApprove s now2 = false := by simp [canApprove, ha]
    simp [approveSession, hc, ha]
  · intro he
    have hc : canApprove s now2 = false := by simp [canApprove, he]
    simp [approveSession, hc, he]

/-- **C8** witness: the transitions at concrete sessions and times. -/
theorem claim_C8_witness :
    demoSession.status = .pending ∧
    approveSession demoSession "sig-123" 2000 =
      .ok { demoSession with
            status := .approved
            approved_at := some 2000
            signature_id := some "sig-123" } ∧
    approveSession demoApproved "sig-456" 2000 = .error "SESSION_ALREADY_APPROVED" ∧
    approveSession demoExpired "sig-123" 2000 = .error "SESSION_EXPIRED" := by
  have h := claim_C8 toyCrypto (fun s => s) "session-1" "token-1" 1000
    "aaaa" "/uploads/test.pdf" "test.pdf" "Approve contract with ACME Corp"
    demoSession "sig-123" 2000
  have h2 := claim_C8 toyCrypto (fun s => s) "session-1" "token-1" 1000
    "aaaa" "/uploads/test.pdf" "test.pdf" "Approve contract with ACME Corp"
    demoApproved "sig-456" 2000
  have h3 := claim_C8 toyCrypto (fun s => s) "session-1" "token-1" 1000
    "aaaa" "/uploads/test.pdf" "test.pdf" "Approve contract with ACME Corp"
    demoExpired "sig-123" 2000
  exact ⟨by decide, h.2.1 (by decide) (by decide),
    h2.2.2.1 (by decide), h3.2.2.2 (by decide)⟩

/-- **C9** counterexample: `expireSession` applied to an `approved` session
does change its status (to `expired`), contradicting the claim that no
operation moves a session out of `approved`. -/
theorem claim_C9_counterexample :
    demoApproved.status = .approved ∧
    (expireSession demoApproved).status ≠ .approved := by decide

/-- **C9** amended: `expired` is terminal (`expireSession` is the identity
there and approval is rejected with `SESSION_EXPIRED`), and `approveSession`
rejects `approved` sessions; but `expireSession` unconditionally sets the
status, so it moves an `approved` session to `expired`. -/
theorem claim_C9_amended (s : ApprovalSession) (signatureId : String) (now : Int) :
    (s.status = .expired →
      expireSession s = s ∧
      approveSession s signatureId now = .error "SESSION_EXPIRED") ∧
    (s.status = .approved →
      approveSession s signatureId now = .error "SESSION_ALREADY_APPROVED" ∧
      (expireSession s).status = .expired) := by
  constructor
  · intro he
    refine ⟨expireSession_of_expired he, ?_⟩
    have hc : canApprove s now = false := by simp [canApprove, he]
    simp [approveSession, hc, he]
  · intro ha
    have hc : canApprove s now = false := by simp [canApprove, ha]
    refine ⟨?_, rfl⟩
    simp [approveSession, hc, ha]

/-- **C9** amended witness: concrete expired and approved sessions. -/
theorem claim_C9_witness :
    expireSession demoExpired = demoExpired ∧
    approveSession demoExpired "sig-123" 2000 = .error "SESSION_EXPIRED" ∧
    approveSession demoApproved "sig-123" 2000 = .error "SESSION_ALREADY_APPROVED" ∧
    (expireSession demoApproved).status = .expired := by
  have h := claim_C9_amended demoExpired "sig-123" 2000
  have h2 := claim_C9_amended demoApproved "sig-123" 2000
  exact ⟨(h.1 (by decide)).1, (h.1 (by decide)).2,
    (h2.2 (by decide)).1, (h2.2 (by decide)).2⟩

/-- **C10**: a still-`pending` session whose deadline has passed is rejected
by `approveSession` with the message `SESSION_ALREADY_APPROVED` (the
status-based message selection never sees the time-based rejection cause),
and `SESSION_EXPIRED` is produced only when the status field is `expired`. -/
theorem claim_C10 (s : ApprovalSession) (signatureId : String) (now : Int) :
    (s.status = .pending → s.expires_at < now →
      approveSession s signatureId now = .error "SESSION_ALREADY_APPROVED") ∧
    (approveSession s signatureId now = .error "SESSION_EXPIRED" →
      s.status = .expired) := by
  constructor
  · intro hp hlt
    have hc : canApprove s now = false := by
      simp [canApprove, hp]
      omega
    have hne : s.status ≠ .expired := by simp [hp]
    simp [approveSession, hc, hne]
  · intro herr
    by_cases he : s.status = .expired
    · exact he
    · by_cases hc : canApprove s now = true
      · simp [approveSession, hc] at herr
      · simp only [Bool.not_eq_true] at hc
        simp [approveSession, hc, he] at herr

/-- **C10** witness: a pending session past its deadline at a concrete time,
and the converse direction at a concrete expired session. -/
theorem claim_C10_witness :
    approveSession demoSession "sig-123" 99999999999 =
      .error "SESSION_ALREADY_APPROVED" ∧
    demoExpired.status = .expired := by
  have h := claim_C10 demoSession "sig-123" 99999999999
  have h2 := claim_C10 demoExpired "sig-123" 2000
  exact ⟨h.1 (by decide) (by decide), h2.2 rfl⟩

/-! ## Serialization claims -/

/-- **C4** counterexample: a JSON object encoding a record under the long
field names does not deserialize to that record — the deserializer reads only
the short keys, finds no `v`, and throws `Invalid signature version`. -/
theorem claim_C4_counterexample :
    deserializeRealitySignature (longFormObject demoRecord) =
      .error "Invalid signature version" := by
  have : jget (longFormObject demoRecord) "v" = none := by
    simp [jget, longFormObject, List.find?]
  simp [deserializeRealitySignature, this]

/-- **C4** amended: the deserializer accepts only the short-key form.  A
short-key object of a record deserializes to (the runtime image of) that
record, while the long-field-name object of the same record is rejected with
`Invalid signature version`, since only the short keys are read and the long
form has no `v` member. -/
theorem claim_C4_amended (r : RealitySignature) (h : r.version = "1.0") :
    deserializeRealitySignature (serializeRealitySignature r) =
      .ok (toDeserialized r) ∧
    deserializeRealitySignature (longFormObject r) =
      .error "Invalid signature version" := by
  constructor
  · have hv : jget (serializeRealitySignature r) "v" = some (.str r.version) := by
      simp [jget, serializeRealitySignature, List.find?]
    simp [deserializeRealitySignature, hv, h, toDeserialized, jget,
      serializeRealitySignature, List.find?]
  · have hv : jget (longFormObject r) "v" = none := by
      simp [jget, longFormObject, List.find?]
    simp [deserializeRealitySignature, hv]

/-- **C4** amended witness: both behaviours at a concrete record. -/
theorem claim_C4_witness :
    deserializeRealitySignature (serializeRealitySignature demoRecord) =
      .ok (toDeserialized demoRecord) ∧
    deserializeRealitySignature (longFormObject demoRecord) =
      .error "Invalid signature version" := by
  have h := claim_C4_amended demoRecord rfl
  exact ⟨h.1, h.2⟩

/-- **C5**: serialize/deserialize round-trips a record exactly (the
deserialized runtime value carries every field of the record, and the runtime
image determines the record), and any parsed JSON object whose `v` member is
not the string `"1.0"` makes the deserializer throw. -/
theorem claim_C5 (r : RealitySignature) (h : r.version = "1.0")
    (o : List (String × Json)) :
    deserializeRealitySignature (serializeRealitySignature r) =
      .ok (toDeserialized r) ∧
    (∀ r' : RealitySignature, toDeserialized r' = toDeserialized r → r' = r) ∧
    (jget o "v" ≠ some (.str "1.0") →
      deserializeRealitySignature o = .error "Invalid signature version") := by
  refine ⟨?_, ?_, ?_⟩
  · have hv : jget (serializeRealitySignature r) "v" = some (.str r.version) := by
      simp [jget, serializeRealitySignature, List.find?]
    simp [deserializeRealitySignature, hv, h, toDeserialized, jget,
      serializeRealitySignature, List.find?]
  · intro r' hr
    cases r; cases r'
    simp only [toDeserialized, DeserializedRecord.mk.injEq, Option.some.injEq,
      Json.str.injEq, Json.num.injEq, Json.bool.injEq] at hr
    simp [RealitySignature.mk.injEq]
    exact hr
  · intro hv
    simp [deserializeRealitySignature, hv]

/-- **C5** witness: round trip at a concrete record; rejection at a concrete
object without a valid version member. -/
theorem claim_C5_witness :
    deserializeRealitySignature (serializeRealitySignature demoRecord) =
      .ok (toDeserialized demoRecord) ∧
    deserializeRealitySignature [("v", Json.str "2.0")] =
      .error "Invalid signature version" := by
  have h := claim_C5 demoRecord rfl [("v", Json.str "2.0")]
  exact ⟨h.1, h.2.2 (by simp [jget, List.find?])⟩

/-! ## Payload determinism claim -/

/-- **C7**: `buildSignaturePayload` is a byte-exact function of the field
values alone — two payloads agree exactly when the field sets agree (the
forward direction is determinism, the backward direction says nothing else
influences the bytes) — and the serialized object lists the abbreviated keys
in exactly the fixed order v, dh, ih, it, ai, an, ts, pp, pph, af, bound to
version, document_hash, intent_hash, intent_text, approver_id, approver_name,
timestamp, presence_proof_id, presence_proof_hash, ai_flag in that order. -/
theorem claim_C7 (f g : SignaturePayloadFields) :
    (buildSignaturePayload f = buildSignaturePayload g ↔ f = g) ∧
    (payloadEntries f).map Prod.fst =
      ["v", "dh", "ih", "it", "ai", "an", "ts", "pp", "pph", "af"] ∧
    (payloadEntries f).map Prod.snd =
      [.str f.version, .str f.document_hash, .str f.intent_hash,
       .str f.intent_text, .str f.approver_id, .str f.approver_name,
       .num f.timestamp, .str f.presence_proof_id,
       .str f.presence_proof_hash, .bool f.ai_flag] := by
  refine ⟨⟨fun h => buildSignaturePayload_inj h, fun h => by rw [h]⟩, ?_, ?_⟩
  · simp [payloadEntries]
  · simp [payloadEntries]

/-! ## Creation / verification helper lemmas -/

/-- The payload fields extracted back out of a created record are exactly the
fields that were signed (version `"1.0"`, `ai_flag` defaulted). -/
theorem extract_create {SK : Type} (C : CryptoPrims SK)
    (p : RealitySignatureParams) (k : SK) :
    extractPayloadFields (createRealitySignature C p k) =
      { version := "1.0"
        document_hash := p.document_hash
        intent_hash := p.intent_hash
        intent_text := p.intent_text
        approver_id := p.approver_id
        approver_name := p.approver_name
        timestamp := p.timestamp
        presence_proof_id := p.presence_proof_id
        presence_proof_hash := p.presence_proof_hash
        ai_flag := p.ai_flag.getD false } := rfl

/-- A record created from well-formed parameters passes the format check. -/
theorem create_format {SK : Type} (C : CryptoPrims SK)
    (p : RealitySignatureParams) (k : SK)
    (h1 : isHex64 p.document_hash = true) (h2 : isHex64 p.intent_hash = true)
    (h3 : p.intent_text ≠ "") (h4 : p.approver_id ≠ "") (h5 : p.approver_name ≠ "")
    (h6 : 0 < p.timestamp) (h7 : p.presence_proof_id ≠ "")
    (h8 : isHex64 p.presence_proof_hash = true)
    (h9 : ∀ q, C.sign q k ≠ "") (h10 : C.getPublicKey k ≠ "") :
    isValidSignatureFormat (createRealitySignature C p k) = true := by
  simp [isValidSignatureFormat, createRealitySignature, h1, h2, h3, h4, h5, h6,
    h7, h8, h9, h10]

/-! ## Verification claims -/

/-- **C2**: verifying a record freshly created from well-formed fields derived
from the document (in particular `document_hash = SHA-256(document)`) against
that document succeeds with `document_integrity = "intact"` and returns
exactly the record's approver id, approver name, timestamp and ai flag.
Hypotheses `hsig` and `hverif` state the behaviour of the abstract Ed25519
scheme (non-empty base64 output; verification accepts an honest signature);
`hhex` states that the abstract SHA-256 yields 64 lowercase hex characters on
this document. -/
theorem claim_C2 {SK : Type} (C : CryptoPrims SK) (doc : List Nat)
    (p : RealitySignatureParams) (k : SK)
    (hdh : p.document_hash = C.hashDocument doc)
    (hhex : isHex64 (C.hashDocument doc) = true)
    (h2 : isHex64 p.intent_hash = true)
    (h3 : p.intent_text ≠ "") (h4 : p.approver_id ≠ "") (h5 : p.approver_name ≠ "")
    (h6 : 0 < p.timestamp) (h7 : p.presence_proof_id ≠ "")
    (h8 : isHex64 p.presence_proof_hash = true)
    (hsig : ∀ q, C.sign q k ≠ "") (hpk : C.getPublicKey k ≠ "")
    (hverif : ∀ q, C.edVerify q (C.sign q k) (C.getPublicKey k) = true) :
    verify C doc (createRealitySignature C p k) =
      .success p.approver_id p.approver_name p.timestamp (p.ai_flag.getD false) ∧
    (verify C doc (createRealitySignature C p k)).valid = true ∧
    (verify C doc (createRealitySignature C p k)).document_integrity = "intact" := by
  have hfmt : isValidSignatureFormat (createRealitySignature C p k) = true :=
    create_format C p k (hdh ▸ hhex) h2 h3 h4 h5 h6 h7 h8 hsig hpk
  have hv : verify C doc (createRealitySignature C p k) =
      .success p.approver_id p.approver_name p.timestamp (p.ai_flag.getD false) := by
    unfold verify
    simp only [hfmt, Bool.not_true, Bool.false_eq_true, if_false, reduceIte]
    simp [createRealitySignature, extractPayloadFields, ← hdh, hverif]
  exact ⟨hv, by rw [hv]; rfl, by rw [hv]; rfl⟩

/-- **C2** witness: round trip at the toy primitives and demo parameters. -/
theorem claim_C2_witness :
    verify toyCrypto demoDoc demoRecord =
      .success "user-123" "Test User" 1234567890123 false := by
  have hsig : ∀ q, toyCrypto.sign q 7 ≠ "" := by
    intro q hq
    have h := congrArg String.length hq
    simp [toyCrypto, String.length_append] at h
    exact absurd h.1 (by decide)
  have h := claim_C2 toyCrypto demoDoc demoParams 7 rfl (by decide) (by decide)
    (by decide) (by decide) (by decide) (by decide) (by decide) (by decide)
    hsig (by decide) (fun q => by simp [toyCrypto])
  exact h.1

/-- **C3**: `verify` a total function into structured results, with the checks
in order: a malformed record yields `invalid_signature_format` with integrity
`unknown` regardless of any hashing (the format check runs first); a
well-formed record whose recomputed document digest differs from
`document_hash` yields `document_altered` with integrity `altered`, carrying
both the computed and the expected digest, whatever the signature bytes would
verify to (the signature check is not reached); a well-formed record with
matching digest whose cryptographic check fails — including the undecodable
base64 cases, which the signing wrapper turns into `false` — yields the value
`signature_not_authentic` with integrity `unknown`, returned rather than
raised. -/
theorem claim_C3 {SK : Type} (C : CryptoPrims SK) (doc : List Nat)
    (sig : RealitySignature) :
    (isValidSignatureFormat sig = false →
      verify C doc sig = .invalidSignatureFormat ∧
      (verify C doc sig).error = some "invalid_signature_format" ∧
      (verify C doc sig).document_integrity = "unknown") ∧
    (isValidSignatureFormat sig = true → C.hashDocument doc ≠ sig.document_hash →
      verify C doc sig = .documentAltered (C.hashDocument doc) sig.document_hash ∧
      (verify C doc sig).error = some "document_altered" ∧
      (verify C doc sig).document_integrity = "altered") ∧
    (isValidSignatureFormat sig = true → C.hashDocument doc = sig.document_hash →
      C.edVerify (buildSignaturePayload (extractPayloadFields sig))
        sig.signature sig.public_key = false →
      verify C doc sig = .signatureNotAuthentic ∧
      (verify C doc sig).error = some "signature_not_authentic" ∧
      (verify C doc sig).document_integrity = "unknown") := by
  refine ⟨?_, ?_, ?_⟩
  · intro hf
    have hv : verify C doc sig = .invalidSignatureFormat := by
      unfold verify
      simp [hf]
    exact ⟨hv, by rw [hv]; rfl, by rw [hv]; rfl⟩
  · intro hf hne
    have hv : verify C doc sig = .documentAltered (C.hashDocument doc) sig.document_hash := by
      unfold verify
      simp [hf, hne]
    exact ⟨hv, by rw [hv]; rfl, by rw [hv]; rfl⟩
  · intro hf heq hbad
    have hv : verify C doc sig = .signatureNotAuthentic := by
      unfold verify
      simp [hf, heq, hbad]
    exact ⟨hv, by rw [hv]; rfl, by rw [hv]; rfl⟩

/-- **C3** witness: the three failure shapes at concrete inputs — a record
with empty `intent_text` (malformed), the demo record against altered
document bytes, and a record with replaced signature bytes against the
original document. -/
theorem claim_C3_witness :
    verify toyCrypto demoDoc { demoRecord with intent_text := "" } =
      .invalidSignatureFormat ∧
    verify toyCrypto demoDocAltered demoRecord =
      .documentAltered (toyCrypto.hashDocument demoDocAltered)
        demoRecord.document_hash ∧
    verify toyCrypto demoDoc { demoRecord with signature := "bogus" } =
      .signatureNotAuthentic := by
  have h1 := claim_C3 toyCrypto demoDoc { demoRecord with intent_text := "" }
  have h2 := claim_C3 toyCrypto demoDocAltered demoRecord
  have h3 := claim_C3 toyCrypto demoDoc { demoRecord with signature := "bogus" }
  exact ⟨(h1.1 (by decide)).1, (h2.2.1 (by decide) (by decide)).1,
    (h3.2.2 (by decide) (by decide) (by decide)).1⟩

/-- **C1** counterexample: `version` is in the claim's list of signed fields,
but changing it (here to `"2.0"`) on a record produced by
`createRealitySignature` makes `verify` fail the format check first, so the
failure is `invalid_signature_format` — not `document_altered` and not
`signature_not_authentic` as the claim requires. -/
theorem claim_C1_counterexample :
    verify toyCrypto demoDoc { demoRecord with version := "2.0" } =
      .invalidSignatureFormat ∧
    (verify toyCrypto demoDoc { demoRecord with version := "2.0" }).error ≠
      some "document_altered" ∧
    (verify toyCrypto demoDoc { demoRecord with version := "2.0" }).error ≠
      some "signature_not_authentic" ∧
    (verify toyCrypto demoDoc { demoRecord with version := "2.0" }).valid = false := by
  decide

/-- **C1** amended: over a record created from well-formed fields bound to the
document, (a) replacing the document with bytes of a different digest makes
`verify` fail with `document_altered`; (b) any change to the signed field set
(signature and public key kept) makes `verify` fail — never succeed; and
(c) when the mutated record still passes the format check, that failure is
`document_altered` or `signature_not_authentic`; a mutation that breaks the
format (e.g. any change of `version`) is reported as
`invalid_signature_format` instead.  Hypotheses `hcoll` (the two digests
differ — SHA-256 collision-freeness at this pair) and `hbind` (Ed25519
accepts a signature made with key `k` only on the signed payload) state the
idealized behaviour of the abstract primitives. -/
theorem claim_C1_amended {SK : Type} (C : CryptoPrims SK) (doc : List Nat)
    (p : RealitySignatureParams) (k : SK)
    (hdh : p.document_hash = C.hashDocument doc)
    (hhex : isHex64 (C.hashDocument doc) = true)
    (h2 : isHex64 p.intent_hash = true)
    (h3 : p.intent_text ≠ "") (h4 : p.approver_id ≠ "") (h5 : p.approver_name ≠ "")
    (h6 : 0 < p.timestamp) (h7 : p.presence_proof_id ≠ "")
    (h8 : isHex64 p.presence_proof_hash = true)
    (hsig : ∀ q, C.sign q k ≠ "") (hpk : C.getPublicKey k ≠ "")
    (hbind : ∀ q q', C.edVerify q' (C.sign q k) (C.getPublicKey k) = true → q' = q) :
    (∀ doc' : List Nat, C.hashDocument doc' ≠ C.hashDocument doc →
      verify C doc' (createRealitySignature C p k) =
        .documentAltered (C.hashDocument doc') (C.hashDocument doc)) ∧
    (∀ r' : RealitySignature,
      r'.signature = (createRealitySignature C p k).signature →
      r'.public_key = (createRealitySignature C p k).public_key →
      extractPayloadFields r' ≠ extractPayloadFields (createRealitySignature C p k) →
      (verify C doc r').valid = false ∧
      (isValidSignatureFormat r' = true →
        (verify C doc r').error = some "document_altered" ∨
        (verify C doc r').error = some "signature_not_authentic")) := by
  have hfmt : isValidSignatureFormat (createRealitySignature C p k) = true :=
    create_format C p k (hdh ▸ hhex) h2 h3 h4 h5 h6 h7 h8 hsig hpk
  constructor
  · intro doc' hne
    unfold verify
    simp only [hfmt, Bool.not_true, Bool.false_eq_true, if_false, reduceIte]
    have : (createRealitySignature C p k).document_hash = C.hashDocument doc := by
      simp [createRealitySignature, hdh]
    simp [this, hne]
  · intro r' hsg hpkeq hdiff
    by_cases hf : isValidSignatureFormat r' = true
    · by_cases hmatch : C.hashDocument doc = r'.document_hash
      · have hnotver :
            C.edVerify (buildSignaturePayload (extractPayloadFields r'))
              r'.signature r'.public_key = false := by
          by_contra hcon
          simp only [Bool.not_eq_false] at hcon
          rw [hsg, hpkeq] at hcon
          have hs : (createRealitySignature C p k).signature =
              C.sign (buildSignaturePayload
                (extractPayloadFields (createRealitySignature C p k))) k := rfl
          have hp : (createRealitySignature C p k).public_key =
              C.getPublicKey k := rfl
          rw [hs, hp] at hcon
          have := hbind _ _ hcon
          exact hdiff (buildSignaturePayload_inj this)
        have hv : verify C doc r' = .signatureNotAuthentic := by
          unfold verify
          simp [hf, hmatch, hnotver]
        exact ⟨by rw [hv]; rfl, fun _ => Or.inr (by rw [hv]; rfl)⟩
      · have hv : verify C doc r' =
            .documentAltered (C.hashDocument doc) r'.document_hash := by
          unfold verify
          simp [hf, hmatch]
        exact ⟨by rw [hv]; rfl, fun _ => Or.inl (by rw [hv]; rfl)⟩
    · simp only [Bool.not_eq_true] at hf
      have hv : verify C doc r' = .invalidSignatureFormat := by
        unfold verify
        simp [hf]
      exact ⟨by rw [hv]; rfl, fun hcon => absurd hcon (by simp [hf])⟩

/-- **C1** amended witness: at the toy primitives, byte-level document change
reports `document_altered`, and a 1 ms timestamp shift on the record makes
verification fail with one of the two signature-related errors. -/
theorem claim_C1_witness :
    verify toyCrypto demoDocAltered demoRecord =
      .documentAltered (toyCrypto.hashDocument demoDocAltered)
        (toyCrypto.hashDocument demoDoc) ∧
    (verify toyCrypto demoDoc
      { demoRecord with timestamp := demoRecord.timestamp + 1 }).valid = false ∧
    ((verify toyCrypto demoDoc
        { demoRecord with timestamp := demoRecord.timestamp + 1 }).error =
      some "document_altered" ∨
     (verify toyCrypto demoDoc
        { demoRecord with timestamp := demoRecord.timestamp + 1 }).error =
      some "signature_not_authentic") := by
  have hsig : ∀ q, toyCrypto.sign q 7 ≠ "" := by
    intro q hq
    have h := congrArg String.length hq
    simp [toyCrypto, String.length_append] at h
    exact absurd h.1 (by decide)
  have hbind : ∀ q q',
      toyCrypto.edVerify q' (toyCrypto.sign q 7) (toyCrypto.getPublicKey 7) = true →
      q' = q := by
    intro q q' h
    simp only [toyCrypto, beq_iff_eq] at h
    have hd := congrArg String.data h
    simp only [String.data_append] at hd
    apply String.ext
    simpa using hd.symm
  have h := claim_C1_amended toyCrypto demoDoc demoParams 7 rfl (by decide)
    (by decide) (by decide) (by decide) (by decide) (by decide) (by decide)
    (by decide) hsig (by decide) hbind
  refine ⟨h.1 demoDocAltered (by decide), ?_, ?_⟩
  · exact (h.2 { demoRecord with timestamp := demoRecord.timestamp + 1 }
      rfl rfl (by decide)).1
  · exact (h.2 { demoRecord with timestamp := demoRecord.timestamp + 1 }
      rfl rfl (by decide)).2 (by decide)

/-! ## Canonicalization lemmas -/

theorem mem_collapse (c : Char) :
    ∀ l : List Char, (c ∈ collapseWs l → c ∈ l ∨ c = ' ') ∧
      (c ∈ collapseSkip l → c ∈ l ∨ c = ' ') := by
  intro l
  induction l with
  | nil => simp [collapseWs, collapseSkip]
  | cons d ds ih =>
    by_cases hw : isWsNotNl d = true
    · constructor
      · intro hm
        simp only [collapseWs, hw, if_true, List.mem_cons] at hm
        rcases hm with hm | hm
        · exact Or.inr hm
        · rcases ih.2 hm with h | h
          · exact Or.inl (List.mem_cons_of_mem _ h)
          · exact Or.inr h
      · intro hm
        simp only [collapseSkip, hw, if_true] at hm
        rcases ih.2 hm with h | h
        · exact Or.inl (List.mem_cons_of_mem _ h)
        · exact Or.inr h
    · have hw' : isWsNotNl d = false := by simpa using hw
      constructor
      · intro hm
        simp only [collapseWs, hw', Bool.false_eq_true, if_false, List.mem_cons] at hm
        rcases hm with hm | hm
        · exact Or.inl (by simp [hm])
        · rcases ih.1 hm with h | h
          · exact Or.inl (List.mem_cons_of_mem _ h)
          · exact Or.inr h
      · intro hm
        simp only [collapseSkip, hw', Bool.false_eq_true, if_false, List.mem_cons] at hm
        rcases hm with hm | hm
        · exact Or.inl (by simp [hm])
        · rcases ih.1 hm with h | h
          · exact Or.inl (List.mem_cons_of_mem _ h)
          · exact Or.inr h

theorem noCR_replaceCr (l : List Char) : '\r' ∉ replaceCr l := by
  intro h
  simp only [replaceCr, List.mem_map] at h
  obtain ⟨a, _, ha⟩ := h
  by_cases h' : a = '\r' <;> simp [h'] at ha

theorem replaceCrLf_cons {c : Char} (cs : List Char) (h : c ≠ '\r') :
    replaceCrLf (c :: cs) = c :: replaceCrLf cs := by
  cases cs with
  | nil => simp [replaceCrLf]
  | cons d ds => simp [replaceCrLf, h]

theorem replaceCrLf_id (l : List Char) (h : '\r' ∉ l) : replaceCrLf l = l := by
  induction l with
  | nil => rfl
  | cons c cs ih =>
    have hc : c ≠ '\r' := fun e => h (by simp [e])
    rw [replaceCrLf_cons cs hc, ih (fun hm => h (List.mem_cons_of_mem _ hm))]

theorem replaceCr_id (l : List Char) (h : '\r' ∉ l) : replaceCr l = l := by
  induction l with
  | nil => rfl
  | cons c cs ih =>
    have hc : c ≠ '\r' := fun e => h (by simp [e])
    simp only [replaceCr, List.map_cons, if_neg hc]
    have := ih (fun hm => h (List.mem_cons_of_mem _ hm))
    simp only [replaceCr] at this
    rw [this]

theorem collapse_ok :
    ∀ l : List Char, collapsedOK (collapseWs l) = true ∧
      (collapsedOK (collapseSkip l) = true ∧ headNotWs (collapseSkip l) = true) := by
  intro l
  induction l with
  | nil => simp [collapseWs, collapseSkip, collapsedOK, headNotWs]
  | cons c cs ih =>
    by_cases hw : isWsNotNl c = true
    · refine ⟨?_, ?_, ?_⟩
      · simp only [collapseWs, hw, if_true]
        have hsp : isWsNotNl ' ' = true := by decide
        simp only [collapsedOK, hsp, if_true, Bool.and_eq_true]
        exact ⟨⟨by decide, ih.2.2⟩, ih.2.1⟩
      · simpa [collapseSkip, hw] using ih.2.1
      · simpa [collapseSkip, hw] using ih.2.2
    · have hw' : isWsNotNl c = false := by simpa using hw
      have hok : collapsedOK (c :: collapseWs cs) = true := by
        simp [collapsedOK, hw', ih.1]
      refine ⟨?_, ?_, ?_⟩
      · simpa [collapseWs, hw'] using hok
      · simpa [collapseSkip, hw'] using hok
      · simp [collapseSkip, hw', headNotWs]

theorem collapse_id :
    ∀ l : List Char, (collapsedOK l = true → collapseWs l = l) ∧
      (collapsedOK l = true → headNotWs l = true → collapseSkip l = l) := by
  intro l
  induction l with
  | nil => simp [collapseWs, collapseSkip]
  | cons c cs ih =>
    constructor
    · intro hok
      simp only [collapsedOK, Bool.and_eq_true] at hok
      by_cases hw : isWsNotNl c = true
      · rw [if_pos hw] at hok
        have hsp : c = ' ' := by
          have := hok.1
          simp only [Bool.and_eq_true, beq_iff_eq] at this
          exact this.1
        have hnw : headNotWs cs = true := by
          have := hok.1
          simp only [Bool.and_eq_true] at this
          exact this.2
        simp only [collapseWs, hw, if_true]
        rw [ih.2 hok.2 hnw, hsp]
      · have hw' : isWsNotNl c = false := by simpa using hw
        simp only [collapseWs, hw', Bool.false_eq_true, if_false]
        rw [ih.1 hok.2]
    · intro hok hnw
      have hw' : isWsNotNl c = false := by
        simp only [headNotWs, Bool.not_eq_true'] at hnw
        exact hnw
      simp only [collapsedOK, Bool.and_eq_true] at hok
      simp only [collapseSkip, hw', Bool.false_eq_true, if_false]
      rw [ih.1 hok.2]

theorem collapsedOK_tail {c : Char} {cs : List Char}
    (h : collapsedOK (c :: cs) = true) : collapsedOK cs = true := by
  simp only [collapsedOK, Bool.and_eq_true] at h
  exact h.2

theorem collapsedOK_dropWhile (p : Char → Bool) :
    ∀ l : List Char, collapsedOK l = true → collapsedOK (l.dropWhile p) = true := by
  intro l
  induction l with
  | nil => simp
  | cons c cs ih =>
    intro hok
    rw [List.dropWhile_cons]
    by_cases hp : p c = true
    · simp only [hp, if_true]
      exact ih (collapsedOK_tail hok)
    · simp only [hp, Bool.false_eq_true, if_false]
      exact hok

theorem collapsedOK_append_left :
    ∀ l1 l2 : List Char, collapsedOK (l1 ++ l2) = true → collapsedOK l1 = true := by
  intro l1
  induction l1 with
  | nil => simp [collapsedOK]
  | cons c cs ih =>
    intro l2 h
    simp only [List.cons_append, collapsedOK, Bool.and_eq_true] at h ⊢
    refine ⟨?_, ih l2 h.2⟩
    by_cases hw : isWsNotNl c = true
    · rw [if_pos hw] at h ⊢
      have h1 := h.1
      simp only [Bool.and_eq_true] at h1 ⊢
      refine ⟨h1.1, ?_⟩
      cases cs with
      | nil => simp [headNotWs]
      | cons d ds =>
        simpa [headNotWs] using h1.2
    · simp [hw]

theorem rtrim_prefix (l : List Char) :
    l = rtrimWs l ++ (l.reverse.takeWhile jsWhitespace).reverse := by
  rw [rtrimWs, ← List.reverse_append, List.takeWhile_append_dropWhile,
    List.reverse_reverse]

theorem noLead_dropWhile (p : Char → Bool) (l : List Char) :
    NoLead p (l.dropWhile p) := by
  induction l with
  | nil => intro c t h; simp at h
  | cons a l ih =>
    intro c t h
    rw [List.dropWhile_cons] at h
    by_cases hp : p a = true
    · rw [if_pos hp] at h
      exact ih c t h
    · rw [if_neg hp] at h
      obtain ⟨h1, _⟩ := List.cons.inj h
      subst h1
      simpa using hp

theorem dropWhile_of_noLead (p : Char → Bool) (l : List Char)
    (h : NoLead p l) : l.dropWhile p = l := by
  cases l with
  | nil => rfl
  | cons c t =>
    have := h c t rfl
    simp [List.dropWhile_cons, this]

theorem noLead_of_append (p : Char → Bool) (x z : List Char)
    (h : NoLead p (x ++ z)) : NoLead p x := by
  intro c t e
  exact h c (t ++ z) (by rw [e]; rfl)

theorem jsTrim_fix (m : List Char) : jsTrim (jsTrim m) = jsTrim m := by
  have h1 : NoLead jsWhitespace (ltrimWs (rtrimWs m)) := noLead_dropWhile _ _
  have hw : NoLead jsWhitespace (rtrimWs m).reverse := by
    have e : (rtrimWs m).reverse = m.reverse.dropWhile jsWhitespace := by
      rw [rtrimWs, List.reverse_reverse]
    rw [e]
    exact noLead_dropWhile _ _
  have hy : NoLead jsWhitespace (ltrimWs (rtrimWs m)).reverse := by
    have hsplit : (rtrimWs m).reverse =
        (ltrimWs (rtrimWs m)).reverse ++ ((rtrimWs m).takeWhile jsWhitespace).reverse := by
      rw [ltrimWs, ← List.reverse_append, List.takeWhile_append_dropWhile]
    exact noLead_of_append _ _ _ (hsplit ▸ hw)
  have hrt : rtrimWs (ltrimWs (rtrimWs m)) = ltrimWs (rtrimWs m) := by
    rw [rtrimWs, dropWhile_of_noLead _ _ hy, List.reverse_reverse]
  show ltrimWs (rtrimWs (ltrimWs (rtrimWs m))) = ltrimWs (rtrimWs m)
  rw [hrt, ltrimWs, dropWhile_of_noLead _ _ h1]

theorem mem_jsTrim {c : Char} {l : List Char} (h : c ∈ jsTrim l) : c ∈ l := by
  have h1 : c ∈ rtrimWs l := (List.dropWhile_sublist _).mem h
  rw [rtrimWs, List.mem_reverse] at h1
  have h2 : c ∈ l.reverse := (List.dropWhile_sublist _).mem h1
  rwa [List.mem_reverse] at h2

/-- **C6**: `canonicalizeIntent` is idempotent.  The NFC normalization is an
engine builtin, abstract here; the hypothesis `hnfc` records the Unicode fact
it satisfies — a string that has already been canonicalized (NFC-normalized
and then edited only by ASCII-level newline/whitespace replacement and
trimming, which cannot introduce new composition or reordering contexts) is a
fixed point of NFC.  Everything downstream of NFC is proved outright: the
newline conversion, whitespace collapsing and trimming stages are jointly
idempotent. -/
theorem claim_C6 (normalizeNFC : String → String)
    (hnfc : ∀ s, normalizeNFC (canonicalizeIntent normalizeNFC s) =
      canonicalizeIntent normalizeNFC s)
    (t : String) :
    canonicalizeIntent normalizeNFC (canonicalizeIntent normalizeNFC t) =
      canonicalizeIntent normalizeNFC t := by
  conv_lhs => rw [canonicalizeIntent, hnfc t]
  rw [canonicalizeIntent]
  apply congrArg String.mk
  show jsTrim (collapseWs (replaceCr (replaceCrLf
    (jsTrim (collapseWs (replaceCr (replaceCrLf (normalizeNFC t).data))))))) = _
  have hnoCR : '\r' ∉ jsTrim (collapseWs (replaceCr
      (replaceCrLf (normalizeNFC t).data))) := by
    intro hm
    have h1 := mem_jsTrim hm
    rcases (mem_collapse '\r' _).1 h1 with h2 | h2
    · exact noCR_replaceCr _ h2
    · exact absurd h2 (by decide)
  rw [replaceCrLf_id _ hnoCR, replaceCr_id _ hnoCR]
  have hok_m : collapsedOK (collapseWs (replaceCr
      (replaceCrLf (normalizeNFC t).data))) = true := (collapse_ok _).1
  have hok_rt : collapsedOK (rtrimWs (collapseWs (replaceCr
      (replaceCrLf (normalizeNFC t).data)))) = true := by
    apply collapsedOK_append_left _ ((collapseWs (replaceCr
      (replaceCrLf (normalizeNFC t).data))).reverse.takeWhile jsWhitespace).reverse
    rw [← rtrim_prefix]
    exact hok_m
  have hok_y : collapsedOK (jsTrim (collapseWs (replaceCr
      (replaceCrLf (normalizeNFC t).data)))) = true :=
    collapsedOK_dropWhile _ _ hok_rt
  rw [(collapse_id _).1 hok_y]
  exact jsTrim_fix _

/-- **C6** witness: idempotence at the identity normalization and a concrete
messy intent string. -/
theorem claim_C6_witness :
    canonicalizeIntent (fun s => s)
        (canonicalizeIntent (fun s => s) "  Approve\r\n  the   deal  ") =
      canonicalizeIntent (fun s => s) "  Approve\r\n  the   deal  " :=
  claim_C6 (fun s => s) (fun _ => rfl) "  Approve\r\n  the   deal  "
